import Mathlib

/-!
Verification of the remote-test client (`scripts/test-remote.js`).

Shallow embedding of the client that drives the asynchronous video-generation
API: HMAC-SHA256 request signing, authenticated transport, job polling,
streaming download, and the orchestrating test flow.  Machine words are
modelled as `Nat` reduced modulo `2^32` where the source's 32-bit arithmetic
overflows; fallible operations return `Except`/`Option`; the event-driven
stream and poll loops are modelled as functions over explicit lists of
responses/events, with wall-clock time advancing by the poll interval per
iteration (network latency is abstracted away).
-/

namespace TestRemote

/-! ## SHA-256 (embedding of Node's `crypto` SHA-256, RFC 6234) -/

/-- Reduce modulo `2^32`: the implicit word size of the hash arithmetic. -/
def w32 (n : Nat) : Nat := n % 4294967296

/-- Right rotation of a 32-bit word. -/
def rotr32 (x n : Nat) : Nat := ((x >>> n) ||| (x <<< (32 - n))) % 4294967296

/-- SHA-256 `Ch` function. -/
def shaCh (x y z : Nat) : Nat := (x &&& y) ^^^ ((x ^^^ 4294967295) &&& z)

/-- SHA-256 `Maj` function. -/
def shaMaj (x y z : Nat) : Nat := (x &&& y) ^^^ (x &&& z) ^^^ (y &&& z)

/-- SHA-256 big sigma 0. -/
def bigSig0 (x : Nat) : Nat := rotr32 x 2 ^^^ rotr32 x 13 ^^^ rotr32 x 22

/-- SHA-256 big sigma 1. -/
def bigSig1 (x : Nat) : Nat := rotr32 x 6 ^^^ rotr32 x 11 ^^^ rotr32 x 25

/-- SHA-256 small sigma 0. -/
def smallSig0 (x : Nat) : Nat := rotr32 x 7 ^^^ rotr32 x 18 ^^^ (x >>> 3)

/-- SHA-256 small sigma 1. -/
def smallSig1 (x : Nat) : Nat := rotr32 x 17 ^^^ rotr32 x 19 ^^^ (x >>> 10)

/-- The 64 SHA-256 round constants (FIPS 180-4), in decimal. -/
def sha256K : List Nat :=
  [1116352408, 1899447441, 3049323471, 3921009573, 961987163,
   1508970993, 2453635748, 2870763221, 3624381080, 310598401,
   607225278, 1426881987, 1925078388, 2162078206, 2614888103,
   3248222580, 3835390401, 4022224774, 264347078, 604807628,
   770255983, 1249150122, 1555081692, 1996064986, 2554220882,
   2821834349, 2952996808, 3210313671, 3336571891, 3584528711,
   113926993, 338241895, 666307205, 773529912, 1294757372,
   1396182291, 1695183700, 1986661051, 2177026350, 2456956037,
   2730485921, 2820302411, 3259730800, 3345764771, 3516065817,
   3600352804, 4094571909, 275423344, 430227734, 506948616,
   659060556, 883997877, 958139571, 1322822218, 1537002063,
   1747873779, 1955562222, 2024104815, 2227730452, 2361852424,
   2428436474, 2756734187, 3204031479, 3329325298]

/-- The eight working variables of the compression function. -/
structure Hash8 where
  a : Nat
  b : Nat
  c : Nat
  d : Nat
  e : Nat
  f : Nat
  g : Nat
  h : Nat
deriving DecidableEq, Repr

/-- SHA-256 initial hash value (FIPS 180-4), in decimal. -/
def initHash : Hash8 :=
  ⟨1779033703, 3144134277, 1013904242, 2773480762,
   1359893119, 2600822924, 528734635, 1541459225⟩

/-- Big-endian split of a 32-bit word into four bytes. -/
def beBytes4 (n : Nat) : List Nat :=
  [n >>> 24 &&& 255, n >>> 16 &&& 255, n >>> 8 &&& 255, n &&& 255]

/-- Big-endian split of a 64-bit length field into eight bytes. -/
def beBytes8 (n : Nat) : List Nat :=
  [n >>> 56 &&& 255, n >>> 48 &&& 255, n >>> 40 &&& 255, n >>> 32 &&& 255,
   n >>> 24 &&& 255, n >>> 16 &&& 255, n >>> 8 &&& 255, n &&& 255]

/-- Group a byte list into big-endian 32-bit words (four bytes per word). -/
def bytesToWords : List Nat → List Nat
  | b0 :: b1 :: b2 :: b3 :: rest =>
      ((b0 <<< 24) ||| (b1 <<< 16) ||| (b2 <<< 8) ||| b3) :: bytesToWords rest
  | _ => []

/-- One extension step of the message schedule: append
`σ1 W[i-2] + W[i-7] + σ0 W[i-15] + W[i-16]` (mod `2^32`). -/
def extendSchedule : Nat → List Nat → List Nat
  | 0, ws => ws
  | n + 1, ws =>
      extendSchedule n (ws ++ [w32 (smallSig1 (ws.getD (ws.length - 2) 0) +
        ws.getD (ws.length - 7) 0 + smallSig0 (ws.getD (ws.length - 15) 0) +
        ws.getD (ws.length - 16) 0)])

/-- Full 64-entry message schedule from the 16 words of one block. -/
def schedule (block16 : List Nat) : List Nat := extendSchedule 48 block16

/-- One SHA-256 compression round, taking the pair `(K[t], W[t])`. -/
def shaRound (st : Hash8) (kw : Nat × Nat) : Hash8 :=
  let t1 := w32 (st.h + bigSig1 st.e + shaCh st.e st.f st.g + kw.1 + kw.2)
  let t2 := w32 (bigSig0 st.a + shaMaj st.a st.b st.c)
  ⟨w32 (t1 + t2), st.a, st.b, st.c, w32 (st.d + t1), st.e, st.f, st.g⟩

/-- Compress one 64-byte block into the running hash state. -/
def compressBlock (st : Hash8) (block : List Nat) : Hash8 :=
  let ws := schedule (bytesToWords block)
  let r := (sha256K.zip ws).foldl shaRound st
  ⟨w32 (st.a + r.a), w32 (st.b + r.b), w32 (st.c + r.c), w32 (st.d + r.d),
   w32 (st.e + r.e), w32 (st.f + r.f), w32 (st.g + r.g), w32 (st.h + r.h)⟩

/-- SHA-256 padding: `0x80`, zeros to 56 mod 64, then the 64-bit bit length. -/
def padMessage (msg : List Nat) : List Nat :=
  msg ++ 128 :: List.replicate ((64 + 55 - (msg.length % 64)) % 64) 0 ++
    beBytes8 (8 * msg.length)

/-- Split a byte list into 64-byte chunks (fuel = list length keeps the
recursion structural, so the kernel can evaluate it). -/
def chunks64Aux : Nat → List Nat → List (List Nat)
  | 0, _ => []
  | _, [] => []
  | fuel + 1, l => l.take 64 :: chunks64Aux fuel (l.drop 64)

/-- Split a byte list into 64-byte chunks. -/
def chunks64 (l : List Nat) : List (List Nat) := chunks64Aux l.length l

/-- Serialize the final hash state to the 32-byte digest. -/
def digestBytes (st : Hash8) : List Nat :=
  beBytes4 st.a ++ beBytes4 st.b ++ beBytes4 st.c ++ beBytes4 st.d ++
  beBytes4 st.e ++ beBytes4 st.f ++ beBytes4 st.g ++ beBytes4 st.h

/-- SHA-256 of a byte list. -/
def sha256 (msg : List Nat) : List Nat :=
  digestBytes ((chunks64 (padMessage msg)).foldl compressBlock initHash)

/-! ## HMAC-SHA256 and hex encoding (embedding of `crypto.createHmac('sha256', …).digest('hex')`) -/

/-- HMAC-SHA256 over byte lists (RFC 2104, block size 64). -/
def hmacSha256 (key msg : List Nat) : List Nat :=
  let k0 := if 64 < key.length then sha256 key else key
  let kPad := k0 ++ List.replicate (64 - k0.length) 0
  let ipadK := kPad.map (fun b => b ^^^ 54)
  let opadK := kPad.map (fun b => b ^^^ 92)
  sha256 (opadK ++ sha256 (ipadK ++ msg))

/-- Lowercase hex digit for a value below 16. -/
def hexDigit (d : Nat) : Char :=
  Char.ofNat (if d < 10 then 48 + d else 87 + d)

/-- Two lowercase hex digits of one byte. -/
def byteHex (b : Nat) : List Char := [hexDigit (b / 16), hexDigit (b % 16)]

/-- Lowercase hex string of a byte list (Node's `.digest('hex')`). -/
def bytesToHex (bs : List Nat) : String := ⟨bs.flatMap byteHex⟩

/-- UTF-8 encoding of one character (Node strings are hashed as UTF-8). -/
def utf8Bytes (c : Char) : List Nat :=
  let n := c.toNat
  if n < 128 then [n]
  else if n < 2048 then [192 + n / 64, 128 + n % 64]
  else if n < 65536 then [224 + n / 4096, 128 + (n / 64) % 64, 128 + n % 64]
  else [240 + n / 262144, 128 + (n / 4096) % 64, 128 + (n / 64) % 64, 128 + n % 64]

/-- UTF-8 bytes of a string. -/
def strBytes (s : String) : List Nat := s.data.flatMap utf8Bytes

/-- HMAC-SHA256 of a string message under a string key, as lowercase hex. -/
def hmacSha256Hex (key msg : String) : String :=
  bytesToHex (hmacSha256 (strBytes key) (strBytes msg))

/-! ## Decimal rendering of numbers (JS `String(timestamp)`) -/

/-- The decimal digit character for a value below 10. -/
def digitChar (d : Nat) : Char := Char.ofNat (48 + d)

/-- Decimal digit characters of a number; the fuel argument keeps the
recursion structural so the kernel can evaluate it. -/
def natDigitsAux : Nat → Nat → List Char
  | 0, _ => []
  | fuel + 1, n =>
      if n < 10 then [digitChar n]
      else natDigitsAux fuel (n / 10) ++ [digitChar (n % 10)]

/-- Decimal digit characters of a number. -/
def natDigits (n : Nat) : List Char := natDigitsAux (n + 1) n

/-- Embedding of JS `String(n)` for a nonnegative integer `n`. -/
def jsNumToString (n : Nat) : String := ⟨natDigits n⟩

/-- Value of a decimal digit string (used to invert `natDigits`). -/
def decVal (cs : List Char) : Nat :=
  cs.foldl (fun a c => 10 * a + (c.toNat - 48)) 0

/-! ## JSON bodies and `JSON.stringify`

The request bodies this client sends are flat objects mapping string keys to
scalar values, so bodies are modelled as association lists of scalars and
`JSON.stringify` is embedded for that shape (object keys serialize in
insertion order, exactly as V8 does for string keys). -/

/-- A scalar JSON value of a body field. -/
inductive JVal where
  | str (s : String)
  | num (n : Nat)
  | boolean (b : Bool)
  | nullv
deriving DecidableEq, Repr

/-- A request body: a flat JSON object, keys in insertion order. -/
abbrev JsonBody := List (String × JVal)

/-- Escaping of one character inside a JSON string (`JSON.stringify`). -/
def escapeChar (c : Char) : List Char :=
  if c = '"' then ['\\', '"']
  else if c = '\\' then ['\\', '\\']
  else if c = Char.ofNat 8 then ['\\', 'b']
  else if c = Char.ofNat 9 then ['\\', 't']
  else if c = Char.ofNat 10 then ['\\', 'n']
  else if c = Char.ofNat 12 then ['\\', 'f']
  else if c = Char.ofNat 13 then ['\\', 'r']
  else if c.toNat < 32 then
    ['\\', 'u', '0', '0', hexDigit (c.toNat / 16), hexDigit (c.toNat % 16)]
  else [c]

/-- A JSON string literal: quoted and escaped. -/
def quoteStr (s : String) : String := "\"" ++ ⟨s.data.flatMap escapeChar⟩ ++ "\""

/-- Serialization of one scalar value. -/
def stringifyVal : JVal → String
  | .str s => quoteStr s
  | .num n => jsNumToString n
  | .boolean true => "true"
  | .boolean false => "false"
  | .nullv => "null"

/-- Embedding of `JSON.stringify(body)` for a flat object body. -/
def jsonStringify (b : JsonBody) : String :=
  "\x7b" ++ String.intercalate ","
    (b.map (fun kv => quoteStr kv.1 ++ ":" ++ stringifyVal kv.2)) ++ "\x7d"

/-! ## Signer (`generateSignature`, test-remote.js lines 116-129) -/

/-- JS truthiness of an optional string (`undefined` and `""` are falsy). -/
def strTruthyOpt : Option String → Bool
  | none => false
  | some s => s != ""

/-- The string that gets signed: `"<timestamp>:<JSON body>"`. -/
def signMessage (timestamp : Nat) (body : JsonBody) : String :=
  jsNumToString timestamp ++ ":" ++ jsonStringify body

/-- Embedding of `generateSignature(timestamp, body)`: throws when the
configured `HMAC_SECRET` is absent or empty, else returns the lowercase hex
HMAC-SHA256 of `"<timestamp>:<JSON.stringify(body)>"` under the secret. -/
def generateSignature (hmacSecret : Option String) (timestamp : Nat)
    (body : JsonBody) : Except String String :=
  if strTruthyOpt hmacSecret = false then
    .error "HMAC_SECRET environment variable is not set"
  else
    .ok (hmacSha256Hex (hmacSecret.getD "") (signMessage timestamp body))

/-! ## Authenticated transport (`makeAuthenticatedRequest`, lines 139-176)

The request configuration handed to `axios` is modelled explicitly; issuing
the AuthenticatedRequest means the function returned `.ok` with this
configuration. `nowMs` is `Date.now()` at send time. -/

/-- The `axios` request configuration the function builds. -/
structure RequestConfig where
  method : String
  url : String
  contentType : String
  xTimestamp : String
  xSignature : Option String
  data : Option JsonBody
  timeoutMs : Nat
deriving DecidableEq, Repr

/-- Embedding of `makeAuthenticatedRequest(method, endpoint, body)`: a fresh
timestamp is taken once, the `X-Timestamp` header is always set, and when a
body is present it becomes the payload and is signed (a missing secret throws
before any request is issued). -/
def makeAuthenticatedRequest (hmacSecret : Option String) (remoteUrl : String)
    (nowMs : Nat) (method endpoint : String) (body : Option JsonBody) :
    Except String RequestConfig :=
  let timestamp := nowMs / 1000
  let base : RequestConfig :=
    ⟨method, remoteUrl ++ endpoint, "application/json",
     jsNumToString timestamp, none, none, 30000⟩
  match body with
  | none => .ok base
  | some b =>
      match generateSignature hmacSecret timestamp b with
      | .error e => .error e
      | .ok signature => .ok { base with data := some b, xSignature := some signature }

/-! ## Job poller (`pollJobStatus`, lines 184-222)

The remote job service is modelled as the list of status responses the
successive `GET /job/{id}` requests would return.  Time is abstracted: each
loop iteration advances the clock by one poll interval (the sleep at the end
of a non-terminal iteration); request latency is zero.  The console output of
an iteration is modelled as the list of progress observations it emits. -/

/-- Job status reported by the service. -/
inductive Status where
  | pending
  | processing
  | completed
  | failed
deriving DecidableEq, Repr

/-- One status response of `GET /job/{jobId}` (absent JSON fields are
`none`). -/
structure JobResp where
  status : Status
  progress : Option Nat
  currentStep : Option String
  error : Option String
  downloadUrl : Option String
deriving DecidableEq, Repr

/-- A progress observation the poll loop prints. -/
inductive Obs where
  /-- The bar printed by `logProgress(job.currentStep, job.progress || 0)`. -/
  | progressBar (step : String) (pct : Nat)
  /-- The notice printed by `logInfo` for a pending job. -/
  | pendingInfo
deriving DecidableEq, Repr

/-- The poll loop's local state: elapsed milliseconds since `startTime`,
`lastStatus` (initially `null`) and `lastProgress` (initially the number 0). -/
structure PollState where
  elapsed : Nat
  lastStatus : Option Status
  lastProgress : Option Nat
deriving DecidableEq, Repr

/-- Poll state at loop entry: `lastStatus = null`, `lastProgress = 0`. -/
def pollInit : PollState := ⟨0, none, some 0⟩

/-- How a poll run ends. -/
inductive PollOutcome where
  /-- The `return job` on a completed status. -/
  | success (job : JobResp)
  /-- the throw `Job failed: <reason>` on `status === 'failed'`. -/
  | jobFailed (reason : String)
  /-- the throw `Timeout: Job did not complete within 5 minutes`. -/
  | timeout
  /-- model artifact: the finite response list ran out (the real loop would
  keep polling). -/
  | exhausted
deriving DecidableEq, Repr

/-- The loop's change test: `job.status !== lastStatus || job.progress !==
lastProgress` (line 199). -/
def pollChanged (job : JobResp) (st : PollState) : Bool :=
  (some job.status != st.lastStatus) || (job.progress != st.lastProgress)

/-- The observations one iteration emits (lines 199-204): inside the changed
branch, `logProgress` for a processing job with a truthy `currentStep`, the
pending notice for a pending job, and nothing otherwise. -/
def pollObs (job : JobResp) (st : PollState) : List Obs :=
  if pollChanged job st = true then
    if job.status = .processing ∧ strTruthyOpt job.currentStep = true then
      [.progressBar (job.currentStep.getD "") (job.progress.getD 0)]
    else if job.status = .pending then [.pendingInfo]
    else []
  else []

/-- The `lastStatus`/`lastProgress` update (lines 205-206), applied only
inside the changed branch. -/
def pollRecord (job : JobResp) (st : PollState) : PollState :=
  if pollChanged job st = true then
    { st with lastStatus := some job.status, lastProgress := job.progress }
  else st

/-- Embedding of `pollJobStatus`: returns the emitted observations, the
outcome, and the number of status requests issued.  The deadline check
`Date.now() - startTime > deadline` sits at the top of the loop, before the
status request of that iteration. -/
def pollJobStatus (deadline interval : Nat) (responses : List JobResp)
    (st : PollState) : List Obs × PollOutcome × Nat :=
  if deadline < st.elapsed then ([], .timeout, 0)
  else
    match responses with
    | [] => ([], .exhausted, 0)
    | job :: rest =>
      let obs := pollObs job st
      let st1 := pollRecord job st
      if job.status = .completed then (obs, .success job, 1)
      else if job.status = .failed then
        (obs, .jobFailed (job.error.getD "Unknown error"), 1)
      else
        let r := pollJobStatus deadline interval rest
          { st1 with elapsed := st1.elapsed + interval }
        (obs ++ r.1, r.2.1, r.2.2 + 1)

/-! ## Streaming download (`downloadFile`, lines 231-262)

The response stream is modelled as the list of events delivered to the
promise: data chunks (by length), an error (socket or disk write — both call
`reject`), or completion (`finish`, which resolves with the file's size on
disk).  The destination file accumulates exactly the piped chunks; nothing in
the source ever unlinks or truncates it. -/

/-- One event of the download stream. -/
inductive DlEvent where
  | chunk (len : Nat)
  | ioError
  | finished
deriving DecidableEq, Repr

/-- How the download promise settles. -/
inductive DlOutcome where
  | resolved (size : Nat)
  | rejected
  /-- model artifact: the finite event list ran out before settling. -/
  | hung
deriving DecidableEq, Repr

/-- Result of a download run: promise outcome, bytes present in the
destination file when the run ends, the `downloadedBytes` accumulator after
each chunk, and the logged percentages. -/
structure DlResult where
  outcome : DlOutcome
  fileBytes : Nat
  byteTrace : List Nat
  pctTrace : List Nat
deriving DecidableEq, Repr

/-- JS truthiness of the parsed `content-length` (`NaN` when absent and `0`
are both falsy). -/
def lenTruthy : Option Nat → Bool
  | none => false
  | some n => n != 0

/-- Rounded percentage `Math.round((downloadedBytes / totalBytes) * 100)` on exact rationals. -/
def jsRound100 (d t : Nat) : Nat := (200 * d + t) / (2 * t)

/-- The download event loop, carrying the `downloadedBytes` accumulator. -/
def downloadLoop (totalBytes : Option Nat) : List DlEvent → Nat → DlResult
  | [], downloaded => ⟨.hung, downloaded, [], []⟩
  | .chunk len :: rest, downloaded =>
      let d1 := downloaded + len
      let r := downloadLoop totalBytes rest d1
      ⟨r.outcome, r.fileBytes, d1 :: r.byteTrace,
        if lenTruthy totalBytes then
          jsRound100 d1 (totalBytes.getD 0) :: r.pctTrace
        else r.pctTrace⟩
  | .ioError :: _, downloaded => ⟨.rejected, downloaded, [], []⟩
  | .finished :: _, downloaded => ⟨.resolved downloaded, downloaded, [], []⟩

/-- Embedding of `downloadFile(url, outputPath)` given the response's
`content-length` header and the stream's events. -/
def downloadFile (contentLength : Option Nat) (events : List DlEvent) : DlResult :=
  downloadLoop contentLength events 0

/-! ## URL validation (`validateUrl`, lines 87-107)

`new URL(url)` is the WHATWG parser of the platform; it is modelled as a
boolean oracle passed in as a parameter.  String suffix and head tests are
implemented over the character list so the kernel can evaluate them. -/

/-- Whether `suf` is a suffix of `s` (JS `endsWith`, over characters). -/
def jsStrEndsWith (s suf : String) : Bool :=
  decide (suf.data.length ≤ s.data.length) &&
    (s.data.drop (s.data.length - suf.data.length) == suf.data)

/-- Whether `pre` starts `s` (JS `startsWith`, over characters). -/
def jsStrStartsWith (s pre : String) : Bool :=
  s.data.take pre.data.length == pre.data

/-- Embedding of `url.replace(/\/$/, '')`: drop one trailing slash. -/
def stripTrailingSlashOnce (s : String) : String :=
  if jsStrEndsWith s "/" = true then ⟨s.data.dropLast⟩ else s

/-- Embedding of `validateUrl(url)`. -/
def validateUrl (urlParses : String → Bool) (url : Option String) :
    Except String String :=
  match url with
  | none => .error "URL is required"
  | some u =>
    if u = "" then .error "URL is required"
    else
      let u1 := stripTrailingSlashOnce u
      let u2 :=
        if jsStrStartsWith u1 "http://" = true ∨ jsStrStartsWith u1 "https://" = true then u1
        else "https://" ++ u1
      if urlParses u2 = true then .ok u2
      else .error ("Invalid URL format: " ++ u2)

/-! ## Orchestrator (`testVideoGeneration`, lines 303-447)

The remote service is modelled by the data the successive calls would
observe.  The trace records which network calls are actually issued, in
order; configuration failures happen before any entry is added. -/

/-- Script constant `POLL_INTERVAL_MS`. -/
def POLL_INTERVAL_MS : Nat := 5000

/-- Script constant `MAX_TIMEOUT_MS` (5 minutes). -/
def MAX_TIMEOUT_MS : Nat := 300000

/-- A network interaction of the test flow. -/
inductive NetCall where
  | healthCall
  | generateCall
  | jobStatusCall
  | downloadHttpCall
deriving DecidableEq, Repr

/-- The final report of a test run. -/
inductive TestOutcome where
  /-- The `process.exit(1)` from the usage message (no URL argument). -/
  | usageExit
  | failed (msg : String)
  | succeeded (fileSize : Nat)
  /-- model artifact: a modelled event/response list ran out. -/
  | stuck
deriving DecidableEq, Repr

/-- The behaviour of the remote service during one test run. -/
structure ServerModel where
  healthOk : Bool
  createOk : Bool
  createdJobId : String
  jobResponses : List JobResp
  downloadEvents : List DlEvent
  contentLength : Option Nat

/-- The sample request body the script submits (tweetBody interpolates the
validated base URL). -/
def requestBody (baseUrl : String) : JsonBody :=
  [("theme", .str "dark"),
   ("profilePhotoUrl", .str "https://pbs.twimg.com/profile_images/1590968738358079488/IY9Gx6Ok_400x400.jpg"),
   ("profileName", .str "Claude Code"),
   ("username", .str "anthropic"),
   ("tweetBody", .str ("Testing the video generation API on remote server!\n\nURL: " ++
     baseUrl ++ "\n\nThe deployment is working great! 🚀"))]

/-- Embedding of `testVideoGeneration()`: validate the URL argument, check the
secret, probe `/health`, submit the signed generate request, poll, download.
Requests built by `makeAuthenticatedRequest` use the raw `REMOTE_URL` (as the
source does), while the request body interpolates the validated base URL. -/
def testVideoGeneration (urlParses : String → Bool) (remoteUrl : Option String)
    (hmacSecret : Option String) (srv : ServerModel) : List NetCall × TestOutcome :=
  match remoteUrl with
  | none => ([], .usageExit)
  | some ru =>
    match validateUrl urlParses (some ru) with
    | .error e => ([], .failed e)
    | .ok baseUrl =>
      if strTruthyOpt hmacSecret = false then
        ([], .failed "HMAC_SECRET not found in environment variables. Please create a .env file.")
      else if srv.healthOk = false then
        ([.healthCall], .failed "Health check failed")
      else
        match makeAuthenticatedRequest hmacSecret ru 0 "POST" "/generate-video"
          (some (requestBody baseUrl)) with
        | .error e => ([.healthCall], .failed e)
        | .ok _cfg =>
          if srv.createOk = false then
            ([.healthCall, .generateCall], .failed "API Error")
          else
            let pr := pollJobStatus MAX_TIMEOUT_MS POLL_INTERVAL_MS srv.jobResponses pollInit
            let pollCalls := List.replicate pr.2.2 NetCall.jobStatusCall
            match pr.2.1 with
            | .timeout =>
                ([.healthCall, .generateCall] ++ pollCalls,
                 .failed "Timeout: Job did not complete within 5 minutes")
            | .jobFailed reason =>
                ([.healthCall, .generateCall] ++ pollCalls,
                 .failed ("Job failed: " ++ reason))
            | .exhausted => ([.healthCall, .generateCall] ++ pollCalls, .stuck)
            | .success _job =>
                let dl := downloadFile srv.contentLength srv.downloadEvents
                match dl.outcome with
                | .resolved size =>
                    ([.healthCall, .generateCall] ++ pollCalls ++ [.downloadHttpCall],
                     .succeeded size)
                | .rejected =>
                    ([.healthCall, .generateCall] ++ pollCalls ++ [.downloadHttpCall],
                     .failed "Download error")
                | .hung =>
                    ([.healthCall, .generateCall] ++ pollCalls ++ [.downloadHttpCall],
                     .stuck)

/-! ## Auxiliary definitions used by the statements and proofs -/

/-- A status response in state `pending` with no optional fields. -/
def pendingResp : JobResp := ⟨.pending, none, none, none, none⟩

/-- A `processing` status response with the given progress and step label. -/
def processingResp (pct : Nat) (step : String) : JobResp :=
  ⟨.processing, some pct, some step, none, none⟩

/-- A `completed` status response carrying a download URL. -/
def completedResp : JobResp :=
  ⟨.completed, some 100, none, none, some "https://cdn.example/video.mp4"⟩

/-- A `failed` status response with the given error reason. -/
def failedResp (reason : String) : JobResp := ⟨.failed, none, none, some reason, none⟩

/-- A server model whose calls all succeed trivially (used to instantiate
universally quantified statements at a concrete input). -/
def trivialServer : ServerModel := ⟨true, true, "job-1", [], [], none⟩

/-- Whether a character is a lowercase hexadecimal digit. -/
def isLowerHex (c : Char) : Bool :=
  (48 ≤ c.toNat && c.toNat ≤ 57) || (97 ≤ c.toNat && c.toNat ≤ 102)

/-- Running totals of a list of chunk lengths starting from `acc`: the value
of the `downloadedBytes` accumulator after each chunk. -/
def prefixSums (acc : Nat) : List Nat → List Nat
  | [] => []
  | l :: ls => (acc + l) :: prefixSums (acc + l) ls

/-- The spec's URL normalization, written from its words for comparison with
`validateUrl`: drop a single trailing slash, then prepend `https://` unless
the string already starts with `http://` or `https://`. -/
def normalizeUrl (u : String) : String :=
  let u1 := if jsStrEndsWith u "/" = true then ⟨u.data.dropLast⟩ else u
  if jsStrStartsWith u1 "http://" = true ∨ jsStrStartsWith u1 "https://" = true then u1
  else "https://" ++ u1

deriving instance DecidableEq for Except

/-! ## Digest shape facts -/

lemma mem_beBytes4_lt {b w : Nat} (hb : b ∈ beBytes4 w) : b < 256 := by
  simp only [beBytes4, List.mem_cons, List.not_mem_nil, or_false] at hb
  rcases hb with rfl | rfl | rfl | rfl <;>
    exact Nat.lt_succ_of_le Nat.and_le_right

lemma digestBytes_length (st : Hash8) : (digestBytes st).length = 32 := by
  simp [digestBytes, beBytes4]

lemma mem_digestBytes_lt {b : Nat} {st : Hash8} (hb : b ∈ digestBytes st) :
    b < 256 := by
  simp only [digestBytes, List.mem_append, or_assoc] at hb
  rcases hb with h | h | h | h | h | h | h | h <;> exact mem_beBytes4_lt h

lemma sha256_length (m : List Nat) : (sha256 m).length = 32 := by
  unfold sha256; exact digestBytes_length _

lemma mem_sha256_lt {b : Nat} {m : List Nat} (hb : b ∈ sha256 m) : b < 256 := by
  unfold sha256 at hb; exact mem_digestBytes_lt hb

lemma hmacSha256_length (k m : List Nat) : (hmacSha256 k m).length = 32 := by
  unfold hmacSha256; exact sha256_length _

lemma mem_hmacSha256_lt {b : Nat} {k m : List Nat} (hb : b ∈ hmacSha256 k m) :
    b < 256 := by
  unfold hmacSha256 at hb; exact mem_sha256_lt hb

/-! ## Hex encoding facts -/

lemma hexDigit_isLowerHex {d : Nat} (hd : d < 16) : isLowerHex (hexDigit d) = true := by
  interval_cases d <;> decide

lemma mem_byteHex_isLowerHex {c : Char} {b : Nat} (hb : b < 256)
    (hc : c ∈ byteHex b) : isLowerHex c = true := by
  simp only [byteHex, List.mem_cons, List.not_mem_nil, or_false] at hc
  rcases hc with rfl | rfl
  · exact hexDigit_isLowerHex (Nat.div_lt_of_lt_mul (by omega))
  · exact hexDigit_isLowerHex (Nat.mod_lt _ (by omega))

lemma flatMap_byteHex_length : ∀ bs : List Nat, (bs.flatMap byteHex).length = 2 * bs.length
  | [] => rfl
  | b :: bs => by
      simp [List.flatMap_cons, flatMap_byteHex_length bs, byteHex]; omega

lemma bytesToHex_length (bs : List Nat) : (bytesToHex bs).length = 2 * bs.length :=
  flatMap_byteHex_length bs

lemma mem_bytesToHex_isLowerHex {c : Char} {bs : List Nat}
    (hbs : ∀ b ∈ bs, b < 256) (hc : c ∈ (bytesToHex bs).data) :
    isLowerHex c = true := by
  simp only [bytesToHex, List.mem_flatMap] at hc
  obtain ⟨b, hb, hcb⟩ := hc
  exact mem_byteHex_isLowerHex (hbs b hb) hcb

/-! ## Decimal strings: `natDigits` inverts through `decVal` -/

lemma digitChar_toNat {d : Nat} (hd : d < 10) : (digitChar d).toNat = 48 + d := by
  interval_cases d <;> decide

lemma decVal_append (cs : List Char) (c : Char) :
    decVal (cs ++ [c]) = 10 * decVal cs + (c.toNat - 48) := by
  simp [decVal, List.foldl_append]

lemma decVal_natDigitsAux : ∀ fuel n, n < fuel →
    decVal (natDigitsAux fuel n) = n := by
  intro fuel
  induction fuel with
  | zero => intro n hn; omega
  | succ f ih =>
      intro n hn
      by_cases h10 : n < 10
      · simp only [natDigitsAux, if_pos h10, decVal, List.foldl_cons, List.foldl_nil]
        rw [digitChar_toNat h10]
        omega
      · have hq : n / 10 < n := Nat.div_lt_self (by omega) (by omega)
        simp only [natDigitsAux, if_neg h10, decVal_append]
        rw [ih (n / 10) (by omega), digitChar_toNat (Nat.mod_lt _ (by omega))]
        have := Nat.div_add_mod n 10
        omega

lemma natDigits_injective : Function.Injective natDigits := by
  intro a b h
  have ha := decVal_natDigitsAux (a + 1) a (by omega)
  have hb := decVal_natDigitsAux (b + 1) b (by omega)
  rw [natDigits] at h
  rw [← ha, ← hb, h, natDigits]

lemma jsNumToString_data (n : Nat) : (jsNumToString n).data = natDigits n := rfl

/-! ## The signing message binds timestamp and body -/

lemma signMessage_data (t : Nat) (B : JsonBody) :
    (signMessage t B).data = natDigits t ++ ':' :: (jsonStringify B).data := by
  show ((jsNumToString t ++ ":") ++ jsonStringify B).data = _
  rw [String.data_append, String.data_append, jsNumToString_data]
  simp

lemma signMessage_timestamp_inj {t1 t2 : Nat} (B : JsonBody)
    (h : signMessage t1 B = signMessage t2 B) : t1 = t2 := by
  have hd := congrArg String.data h
  rw [signMessage_data, signMessage_data] at hd
  exact natDigits_injective (List.append_cancel_right hd)

lemma signMessage_body_inj {t : Nat} {B1 B2 : JsonBody}
    (h : signMessage t B1 = signMessage t B2) :
    jsonStringify B1 = jsonStringify B2 := by
  have hd := congrArg String.data h
  rw [signMessage_data, signMessage_data] at hd
  have htail := List.append_cancel_left hd
  have hdata : (jsonStringify B1).data = (jsonStringify B2).data := by
    injection htail
  cases hs1 : jsonStringify B1 with
  | mk d1 =>
      cases hs2 : jsonStringify B2 with
      | mk d2 =>
          rw [hs1, hs2] at hdata
          exact congrArg String.mk (by simpa using hdata)

lemma generateSignature_ok {s : String} (hs : s ≠ "") (t : Nat) (B : JsonBody) :
    generateSignature (some s) t B = .ok (hmacSha256Hex s (signMessage t B)) := by
  simp [generateSignature, strTruthyOpt, bne_iff_ne, hs]

/-! ## Poll loop: one-step unfoldings and invariants -/

lemma pollRecord_elapsed (job : JobResp) (st : PollState) :
    (pollRecord job st).elapsed = st.elapsed := by
  unfold pollRecord; split <;> rfl

lemma poll_timeout_now {d p : Nat} {rs : List JobResp} {s : PollState}
    (he : d < s.elapsed) : pollJobStatus d p rs s = ([], .timeout, 0) := by
  cases rs <;> simp [pollJobStatus, he]

lemma poll_nil {d p : Nat} {s : PollState} (he : ¬ d < s.elapsed) :
    pollJobStatus d p [] s = ([], .exhausted, 0) := by
  simp [pollJobStatus, he]

lemma poll_step_completed {d p : Nat} {job : JobResp} {st : PollState}
    (he : ¬ d < st.elapsed) (hc : job.status = .completed)
    (rest : List JobResp) :
    pollJobStatus d p (job :: rest) st = (pollObs job st, .success job, 1) := by
  simp [pollJobStatus, he, hc]

lemma poll_step_failed {d p : Nat} {job : JobResp} {st : PollState}
    (he : ¬ d < st.elapsed) (hf : job.status = .failed)
    (rest : List JobResp) :
    pollJobStatus d p (job :: rest) st =
      (pollObs job st, .jobFailed (job.error.getD "Unknown error"), 1) := by
  have hc : ¬ job.status = .completed := by rw [hf]; intro h; cases h
  simp [pollJobStatus, he, hc, hf]

lemma poll_step_nonterminal {d p : Nat} {job : JobResp} {s : PollState}
    (he : ¬ d < s.elapsed) (hc : job.status ≠ .completed)
    (hf : job.status ≠ .failed) (rest : List JobResp) :
    pollJobStatus d p (job :: rest) s =
      (pollObs job s ++
        (pollJobStatus d p rest
          ⟨s.elapsed + p, (pollRecord job s).lastStatus,
           (pollRecord job s).lastProgress⟩).1,
       (pollJobStatus d p rest
          ⟨s.elapsed + p, (pollRecord job s).lastStatus,
           (pollRecord job s).lastProgress⟩).2.1,
       (pollJobStatus d p rest
          ⟨s.elapsed + p, (pollRecord job s).lastStatus,
           (pollRecord job s).lastProgress⟩).2.2 + 1) := by
  conv_lhs => rw [pollJobStatus]
  rw [if_neg he]
  simp only [if_neg hc, if_neg hf]
  have hst : ({ pollRecord job s with
      elapsed := (pollRecord job s).elapsed + p } : PollState) =
      ⟨s.elapsed + p, (pollRecord job s).lastStatus,
       (pollRecord job s).lastProgress⟩ := by
    rw [PollState.mk.injEq]
    exact ⟨by rw [pollRecord_elapsed], rfl, rfl⟩
  rw [hst]

lemma poll_timeout_late {d p : Nat} : ∀ (rs : List JobResp) (st : PollState),
    (pollJobStatus d p rs st).2.1 = .timeout →
    d < st.elapsed + (pollJobStatus d p rs st).2.2 * p := by
  intro rs
  induction rs with
  | nil =>
      intro st h
      by_cases he : d < st.elapsed
      · rw [poll_timeout_now he]; simpa using he
      · rw [poll_nil he] at h; cases h
  | cons job rest ih =>
      intro st h
      by_cases he : d < st.elapsed
      · rw [poll_timeout_now he]; simpa using he
      · by_cases hc : job.status = .completed
        · rw [poll_step_completed he hc] at h; cases h
        · by_cases hf : job.status = .failed
          · rw [poll_step_failed he hf] at h; cases h
          · rw [poll_step_nonterminal he hc hf] at h ⊢
            have h2 := ih ⟨st.elapsed + p, (pollRecord job st).lastStatus,
              (pollRecord job st).lastProgress⟩ h
            have h3 : d < (st.elapsed + p) +
                (pollJobStatus d p rest
                  ⟨st.elapsed + p, (pollRecord job st).lastStatus,
                   (pollRecord job st).lastProgress⟩).2.2 * p := h2
            simp only [Nat.succ_mul]
            omega

lemma poll_replicate_pending {d p : Nat} (hp : 0 < p) :
    ∀ (n : Nat) (ls : Option Status) (lp : Option Nat) (e : Nat),
      (if d < e then 0 else (d - e) / p + 1) ≤ n →
      (pollJobStatus d p (List.replicate n pendingResp) ⟨e, ls, lp⟩).2 =
        (.timeout, if d < e then 0 else (d - e) / p + 1) := by
  intro n
  induction n with
  | zero =>
      intro ls lp e hle
      have he : d < e := by by_contra h; simp [h] at hle
      rw [poll_timeout_now he, if_pos he]
  | succ n ih =>
      intro ls lp e hle
      by_cases he : d < e
      · rw [poll_timeout_now he, if_pos he]
      · rw [if_neg he] at hle ⊢
        rw [List.replicate_succ,
          poll_step_nonterminal (s := ⟨e, ls, lp⟩) he (by decide) (by decide)]
        by_cases h2 : d < e + p
        · have hz : (d - e) / p = 0 := Nat.div_eq_of_lt (by omega)
          have := ih (pollRecord pendingResp ⟨e, ls, lp⟩).lastStatus
            (pollRecord pendingResp ⟨e, ls, lp⟩).lastProgress (e + p)
            (by rw [if_pos h2]; omega)
          rw [if_pos h2] at this
          rw [Prod.ext_iff] at this ⊢
          simp only at this ⊢
          exact ⟨this.1, by rw [this.2, hz]⟩
        · have hsub : (d - e) / p = (d - (e + p)) / p + 1 := by
            have h3 := Nat.div_eq_sub_div hp (show p ≤ d - e by omega)
            have h4 : d - e - p = d - (e + p) := by omega
            rw [h3, h4]
          have := ih (pollRecord pendingResp ⟨e, ls, lp⟩).lastStatus
            (pollRecord pendingResp ⟨e, ls, lp⟩).lastProgress (e + p)
            (by rw [if_neg h2]; omega)
          rw [if_neg h2] at this
          rw [Prod.ext_iff] at this ⊢
          simp only at this ⊢
          exact ⟨this.1, by rw [this.2, hsub]⟩

lemma poll_prefix_failed {d p : Nat} :
    ∀ (pre : List JobResp) (st : PollState),
      (∀ j ∈ pre, j.status ≠ .completed ∧ j.status ≠ .failed) →
      ∀ (fj : JobResp), fj.status = .failed →
      ∀ (rest : List JobResp),
      st.elapsed + pre.length * p ≤ d →
      (pollJobStatus d p (pre ++ fj :: rest) st).2 =
        (.jobFailed (fj.error.getD "Unknown error"), pre.length + 1) := by
  intro pre
  induction pre with
  | nil =>
      intro st _ fj hf rest hd
      have he : ¬ d < st.elapsed := by simp at hd; omega
      rw [List.nil_append, poll_step_failed he hf]
      simp
  | cons j pre ih =>
      intro st h fj hf rest hd
      have hj := h j (List.mem_cons_self j pre)
      have he : ¬ d < st.elapsed := by
        simp only [List.length_cons] at hd; omega
      rw [List.cons_append, poll_step_nonterminal he hj.1 hj.2]
      have harith : (st.elapsed + p) + pre.length * p ≤ d := by
        simp only [List.length_cons, Nat.succ_mul] at hd; omega
      have := ih ⟨st.elapsed + p, (pollRecord j st).lastStatus,
          (pollRecord j st).lastProgress⟩
        (fun x hx => h x (List.mem_cons_of_mem _ hx)) fj hf rest harith
      rw [Prod.ext_iff] at this ⊢
      simp only at this ⊢
      exact ⟨this.1, by rw [this.2, List.length_cons]⟩

lemma poll_singleton_trace {d p : Nat} {job : JobResp} {st : PollState}
    (he : ¬ d < st.elapsed) :
    (pollJobStatus d p [job] st).1 = pollObs job st := by
  by_cases hc : job.status = .completed
  · rw [poll_step_completed he hc]
  · by_cases hf : job.status = .failed
    · rw [poll_step_failed he hf]
    · rw [poll_step_nonterminal he hc hf]
      by_cases he2 : d < st.elapsed + p
      · rw [poll_timeout_now (s := ⟨st.elapsed + p, _, _⟩) he2, List.append_nil]
      · rw [poll_nil (s := ⟨st.elapsed + p, _, _⟩) he2, List.append_nil]

/-! ## Download loop: runs over chunk lists -/

lemma downloadLoop_chunk (cl : Option Nat) (len : Nat) (rest : List DlEvent)
    (d : Nat) :
    downloadLoop cl (DlEvent.chunk len :: rest) d =
      ⟨(downloadLoop cl rest (d + len)).outcome,
       (downloadLoop cl rest (d + len)).fileBytes,
       (d + len) :: (downloadLoop cl rest (d + len)).byteTrace,
       if lenTruthy cl = true then
         jsRound100 (d + len) (cl.getD 0) :: (downloadLoop cl rest (d + len)).pctTrace
       else (downloadLoop cl rest (d + len)).pctTrace⟩ := rfl

lemma downloadLoop_chunks_finished (cl : Option Nat) :
    ∀ (lens : List Nat) (d : Nat),
      downloadLoop cl (lens.map DlEvent.chunk ++ [DlEvent.finished]) d =
        ⟨.resolved (d + lens.sum), d + lens.sum, prefixSums d lens,
         if lenTruthy cl = true then
           (prefixSums d lens).map (fun x => jsRound100 x (cl.getD 0))
         else []⟩ := by
  intro lens
  induction lens with
  | nil =>
      intro d
      simp only [List.map_nil, List.nil_append, List.sum_nil, Nat.add_zero,
        prefixSums, List.map_nil, ite_self]
      rfl
  | cons l ls ih =>
      intro d
      rw [List.map_cons, List.cons_append, downloadLoop_chunk, ih (d + l)]
      simp only [List.sum_cons, prefixSums, List.map_cons, ← Nat.add_assoc]
      by_cases h : lenTruthy cl = true
      · simp [h]
      · simp [h]

lemma downloadLoop_chunks_error (cl : Option Nat) :
    ∀ (lens : List Nat) (post : List DlEvent) (d : Nat),
      (downloadLoop cl (lens.map DlEvent.chunk ++ DlEvent.ioError :: post) d).outcome =
          .rejected ∧
      (downloadLoop cl (lens.map DlEvent.chunk ++ DlEvent.ioError :: post) d).fileBytes =
          d + lens.sum ∧
      (downloadLoop cl (lens.map DlEvent.chunk ++ DlEvent.ioError :: post) d).byteTrace =
          prefixSums d lens := by
  intro lens
  induction lens with
  | nil => intro post d; exact ⟨rfl, by simp [downloadLoop], by simp [downloadLoop, prefixSums]⟩
  | cons l ls ih =>
      intro post d
      obtain ⟨h1, h2, h3⟩ := ih post (d + l)
      rw [List.map_cons, List.cons_append, downloadLoop_chunk]
      refine ⟨h1, ?_, ?_⟩
      · simp only [List.sum_cons]
        rw [h2]; omega
      · simp only [prefixSums]
        rw [h3]

lemma prefixSums_chain : ∀ (lens : List Nat) (acc : Nat),
    (∀ l ∈ lens, 0 < l) → List.Chain' (· < ·) (prefixSums acc lens) := by
  intro lens
  induction lens with
  | nil => intro acc _; simp [prefixSums]
  | cons l ls ih =>
      intro acc h
      rw [prefixSums, List.chain'_cons']
      refine ⟨?_, ih (acc + l) (fun x hx => h x (List.mem_cons_of_mem _ hx))⟩
      intro b hb
      cases ls with
      | nil => simp [prefixSums] at hb
      | cons l2 ls2 =>
          rw [prefixSums, List.head?_cons] at hb
          have hb2 : b = acc + l + l2 := by simpa [eq_comm] using hb
          have hl2 : 0 < l2 :=
            h l2 (List.mem_cons_of_mem _ (List.mem_cons_self l2 ls2))
          show acc + l < b
          omega

lemma prefixSums_getLast : ∀ (lens : List Nat) (acc : Nat), lens ≠ [] →
    (prefixSums acc lens).getLast? = some (acc + lens.sum) := by
  intro lens
  induction lens with
  | nil => intro acc h; exact absurd rfl h
  | cons l ls ih =>
      intro acc _
      cases ls with
      | nil => simp [prefixSums]
      | cons l2 ls2 =>
          rw [prefixSums, prefixSums, List.getLast?_cons_cons, ← prefixSums]
          rw [ih (acc + l) (by simp)]
          simp only [List.sum_cons, Option.some.injEq]
          omega

lemma validateUrl_some (parses : String → Bool) (u : String) (hu : u ≠ "") :
    validateUrl parses (some u) =
      if parses (normalizeUrl u) = true then .ok (normalizeUrl u)
      else .error ("Invalid URL format: " ++ normalizeUrl u) := by
  simp only [validateUrl, if_neg hu, normalizeUrl, stripTrailingSlashOnce]

attribute [irreducible] sha256 hmacSha256

/-! ## Claim theorems -/

/-- Claim C3: for every integer timestamp `t`, body mapping `B`, and
configured non-empty secret `s`, the signature equals the lowercase
hexadecimal HMAC-SHA256 digest, keyed with `s`, of the string
`"<t>:<JSON.stringify(B)>"` — and that digest is 64 lowercase hex
characters. -/
theorem c3_signature_construction (s : String) (hs : s ≠ "") (t : Nat)
    (B : JsonBody) :
    generateSignature (some s) t B =
      .ok (hmacSha256Hex s (jsNumToString t ++ ":" ++ jsonStringify B)) ∧
    (hmacSha256Hex s (jsNumToString t ++ ":" ++ jsonStringify B)).length = 64 ∧
    ∀ c ∈ (hmacSha256Hex s (jsNumToString t ++ ":" ++ jsonStringify B)).data,
      isLowerHex c = true := by
  refine ⟨generateSignature_ok hs t B, ?_, ?_⟩
  · show (bytesToHex _).length = 64
    rw [bytesToHex_length, hmacSha256_length]
  · intro c hc
    exact mem_bytesToHex_isLowerHex (fun b hb => mem_hmacSha256_lt hb) hc

/-- Witness for C3 at secret `"k"`, timestamp 1700000000, a one-field body. -/
theorem c3_signature_construction_witness :
    ("k" : String) ≠ "" ∧
    generateSignature (some "k") 1700000000 [("theme", JVal.str "dark")] =
      .ok (hmacSha256Hex "k"
        (jsNumToString 1700000000 ++ ":" ++
          jsonStringify [("theme", JVal.str "dark")])) :=
  ⟨by decide,
   (c3_signature_construction "k" (by decide) 1700000000
     [("theme", JVal.str "dark")]).1⟩

/-- Claim C10: `validateUrl` rejects an absent or empty input; for a non-empty
input it strips one trailing slash, prepends `https://` when no http(s) scheme
is present, returns the normalized string when it parses as a URL and raises
otherwise; a well-formed https URL without trailing slash is returned
unchanged. -/
theorem c10_validateUrl_normalization (parses : String → Bool) (u : String) :
    validateUrl parses none = .error "URL is required" ∧
    validateUrl parses (some "") = .error "URL is required" ∧
    (u ≠ "" →
      validateUrl parses (some u) =
        if parses (normalizeUrl u) = true then .ok (normalizeUrl u)
        else .error ("Invalid URL format: " ++ normalizeUrl u)) ∧
    (u ≠ "" → jsStrEndsWith u "/" = false → jsStrStartsWith u "https://" = true →
      parses u = true → validateUrl parses (some u) = .ok u) := by
  refine ⟨rfl, rfl, fun hu => validateUrl_some parses u hu, ?_⟩
  intro hu hslash hhttps hp
  have hnorm : normalizeUrl u = u := by
    simp [normalizeUrl, hslash, hhttps]
  rw [validateUrl_some parses u hu, hnorm, hp]
  simp

/-- Witness for C10 at a well-formed https URL and a permissive parser. -/
theorem c10_validateUrl_normalization_witness :
    ("https://my-api.example" : String) ≠ "" ∧
    jsStrEndsWith "https://my-api.example" "/" = false ∧
    jsStrStartsWith "https://my-api.example" "https://" = true ∧
    validateUrl (fun _ => true) (some "https://my-api.example") =
      .ok "https://my-api.example" :=
  ⟨by decide, by decide, by decide,
   (c10_validateUrl_normalization (fun _ => true) "https://my-api.example").2.2.2
     (by decide) (by decide) (by decide) rfl⟩

/-- Claim C7: whenever the authenticated send succeeds in building a request,
the `X-Signature` header is present exactly when a body is provided, the
`X-Timestamp` header always carries the freshly computed timestamp, the
payload is exactly the given body, and the signature is computed over that
same timestamp and body. -/
theorem c7_transport_headers (secret : Option String) (ru : String) (now : Nat)
    (m e : String) (body : Option JsonBody) (cfg : RequestConfig)
    (h : makeAuthenticatedRequest secret ru now m e body = .ok cfg) :
    cfg.xSignature.isSome = body.isSome ∧
    cfg.xTimestamp = jsNumToString (now / 1000) ∧
    cfg.data = body ∧
    (∀ b, body = some b → ∃ s, secret = some s ∧ s ≠ "" ∧
       cfg.xSignature = some (hmacSha256Hex s (signMessage (now / 1000) b))) := by
  cases body with
  | none =>
      have hb : cfg = ⟨m, ru ++ e, "application/json",
          jsNumToString (now / 1000), none, none, 30000⟩ := by
        simp only [makeAuthenticatedRequest] at h
        exact (Except.ok.inj h).symm
      subst hb
      refine ⟨rfl, rfl, rfl, ?_⟩
      intro b hb2
      exact Option.noConfusion hb2
  | some b =>
      simp only [makeAuthenticatedRequest] at h
      cases hsig : generateSignature secret (now / 1000) b with
      | error e2 => rw [hsig] at h; exact Except.noConfusion h
      | ok sig =>
          rw [hsig] at h
          have hc : cfg = ⟨m, ru ++ e, "application/json",
              jsNumToString (now / 1000), some sig, some b, 30000⟩ :=
            (Except.ok.inj h).symm
          subst hc
          refine ⟨rfl, rfl, rfl, ?_⟩
          intro b2 hb2
          have hbb : b = b2 := Option.some.inj hb2
          subst hbb
          cases secret with
          | none => simp [generateSignature, strTruthyOpt] at hsig
          | some s =>
              by_cases hs : s = ""
              · subst hs
                simp [generateSignature, strTruthyOpt] at hsig
              · refine ⟨s, rfl, hs, ?_⟩
                rw [generateSignature_ok hs] at hsig
                have hv := Except.ok.inj hsig
                rw [← hv]

/-- Witness for C7 at a bodiless GET (health-style call). -/
theorem c7_transport_headers_witness :
    makeAuthenticatedRequest none "https://a.example" 5000 "GET" "/health" none =
      .ok ⟨"GET", "https://a.example/health", "application/json", "5",
           none, none, 30000⟩ ∧
    (RequestConfig.mk "GET" "https://a.example/health" "application/json" "5"
        none none 30000).xSignature.isSome = (none : Option JsonBody).isSome ∧
    (RequestConfig.mk "GET" "https://a.example/health" "application/json" "5"
        none none 30000).xTimestamp = jsNumToString (5000 / 1000) :=
  ⟨by decide,
   (c7_transport_headers none "https://a.example" 5000 "GET" "/health" none
     ⟨"GET", "https://a.example/health", "application/json", "5",
      none, none, 30000⟩ (by decide)).1,
   (c7_transport_headers none "https://a.example" 5000 "GET" "/health" none
     ⟨"GET", "https://a.example/health", "application/json", "5",
      none, none, 30000⟩ (by decide)).2.1⟩

/-- Claim C6: if the signing secret is absent or empty, the client fails with
the fatal configuration error before issuing any network request — the
orchestrator's trace is empty and it reports the missing-secret failure, and
`generateSignature` (hence any signed transport call) raises before any HTTP
request is built. -/
theorem c6_missing_secret_fails_fast (secret : Option String)
    (hsec : strTruthyOpt secret = false) :
    (∀ (parses : String → Bool) (url : Option String) (srv : ServerModel),
       (testVideoGeneration parses url secret srv).1 = []) ∧
    (∀ (parses : String → Bool) (ru : String) (srv : ServerModel) (b : String),
       validateUrl parses (some ru) = .ok b →
       (testVideoGeneration parses (some ru) secret srv).2 =
         .failed "HMAC_SECRET not found in environment variables. Please create a .env file.") ∧
    (∀ (t : Nat) (B : JsonBody),
       generateSignature secret t B =
         .error "HMAC_SECRET environment variable is not set") ∧
    (∀ (ru : String) (now : Nat) (m e : String) (b : JsonBody),
       makeAuthenticatedRequest secret ru now m e (some b) =
         .error "HMAC_SECRET environment variable is not set") := by
  refine ⟨?_, ?_, ?_, ?_⟩
  · intro parses url srv
    cases url with
    | none => rfl
    | some ru =>
        simp only [testVideoGeneration]
        cases hv : validateUrl parses (some ru) with
        | error e => simp
        | ok b => simp [hsec]
  · intro parses ru srv b hv
    simp only [testVideoGeneration]
    rw [hv]
    simp [hsec]
  · intro t B
    simp [generateSignature, hsec]
  · intro ru now m e b
    simp [makeAuthenticatedRequest, generateSignature, hsec]

/-- Witness for C6 at the empty secret and a reachable server model. -/
theorem c6_missing_secret_fails_fast_witness :
    strTruthyOpt (some "") = false ∧
    (testVideoGeneration (fun _ => true) (some "https://a.example") (some "")
      trivialServer).1 = [] ∧
    (testVideoGeneration (fun _ => true) (some "https://a.example") (some "")
      trivialServer).2 =
      .failed "HMAC_SECRET not found in environment variables. Please create a .env file." ∧
    generateSignature (some "") 0 [] =
      .error "HMAC_SECRET environment variable is not set" ∧
    makeAuthenticatedRequest (some "") "https://a.example" 0 "POST"
      "/generate-video" (some []) =
      .error "HMAC_SECRET environment variable is not set" :=
  ⟨by decide,
   (c6_missing_secret_fails_fast (some "") (by decide)).1 (fun _ => true)
     (some "https://a.example") trivialServer,
   (c6_missing_secret_fails_fast (some "") (by decide)).2.1 (fun _ => true)
     "https://a.example" trivialServer "https://a.example" (by decide),
   (c6_missing_secret_fails_fast (some "") (by decide)).2.2.1 0 [],
   (c6_missing_secret_fails_fast (some "") (by decide)).2.2.2 "https://a.example"
     0 "POST" "/generate-video" []⟩

/-- Claim C5: against a server that never leaves `pending`, the poller fails
with `Timeout` after `deadline / interval + 1` status requests (the deadline
check runs at the top of every iteration, before the request), and whenever
the poller times out the elapsed time `consumed * interval` strictly exceeds
the deadline — never at or before it. -/
theorem c5_deadline_timeout :
    (∀ (d p n : Nat), 0 < p → d / p + 1 ≤ n →
       (pollJobStatus d p (List.replicate n pendingResp) pollInit).2 =
         (.timeout, d / p + 1)) ∧
    (∀ (d p : Nat) (rs : List JobResp),
       (pollJobStatus d p rs pollInit).2.1 = .timeout →
       d < (pollJobStatus d p rs pollInit).2.2 * p) := by
  constructor
  · intro d p n hp hn
    have h := poll_replicate_pending hp n none (some 0) 0 (by simpa using hn)
    simpa using h
  · intro d p rs h
    have h2 := poll_timeout_late rs pollInit h
    simpa [pollInit] using h2

/-- Witness for C5 at the spec's example: deadline 5000 ms, interval 5000 ms,
an always-pending server; timeout after the second status request. -/
theorem c5_deadline_timeout_witness :
    0 < 5000 ∧ 5000 / 5000 + 1 ≤ 2 ∧
    (pollJobStatus 5000 5000 (List.replicate 2 pendingResp) pollInit).2 =
      (.timeout, 5000 / 5000 + 1) ∧
    5000 < (pollJobStatus 5000 5000 (List.replicate 2 pendingResp) pollInit).2.2 * 5000 :=
  ⟨by decide, by decide,
   c5_deadline_timeout.1 5000 5000 2 (by decide) (by decide),
   c5_deadline_timeout.2 5000 5000 (List.replicate 2 pendingResp) (by decide)⟩

/-- Claim C4: when a status response reports `failed` with error
`"encode crashed"` after a prefix of non-terminal responses (within the
deadline), the poller fails with exactly that reason and issues no status
request after the failing response. -/
theorem c4_failed_job_terminal (d p : Nat) (pre rest : List JobResp)
    (fj : JobResp)
    (hpre : ∀ j ∈ pre, j.status ≠ .completed ∧ j.status ≠ .failed)
    (hf : fj.status = .failed) (herr : fj.error = some "encode crashed")
    (hd : pre.length * p ≤ d) :
    (pollJobStatus d p (pre ++ fj :: rest) pollInit).2 =
      (.jobFailed "encode crashed", pre.length + 1) := by
  have h := poll_prefix_failed pre pollInit hpre fj hf rest
    (by simpa [pollInit] using hd)
  rw [herr] at h
  simpa using h

/-- Witness for C4: one pending response, then the failing one; the trailing
response is never requested. -/
theorem c4_failed_job_terminal_witness :
    (∀ j ∈ [pendingResp], j.status ≠ Status.completed ∧ j.status ≠ Status.failed) ∧
    (failedResp "encode crashed").status = Status.failed ∧
    (failedResp "encode crashed").error = some "encode crashed" ∧
    (pollJobStatus 300000 5000
      ([pendingResp] ++ failedResp "encode crashed" :: [pendingResp])
      pollInit).2 = (.jobFailed "encode crashed", 2) :=
  ⟨by decide, by decide, by decide,
   c4_failed_job_terminal 300000 5000 [pendingResp] [pendingResp]
     (failedResp "encode crashed") (by decide) (by decide) (by decide) (by decide)⟩

/-- Claim C1 (counterexample): an observation is *not* emitted iff the status
or progress changed — a `completed` response differing from the last observed
state emits nothing. -/
theorem c1_observation_counterexample :
    ¬ (((pollJobStatus MAX_TIMEOUT_MS POLL_INTERVAL_MS [completedResp]
          pollInit).1 ≠ []) ↔
       (some completedResp.status ≠ pollInit.lastStatus ∨
        completedResp.progress ≠ pollInit.lastProgress)) := by
  decide

/-- Claim C1 (amended): over `pending → processing(10) → processing(60) →
completed` the poller emits the pending notice and one progress observation
per distinct processing `(status, progress)` pair, in order, then returns the
completed job (nothing is emitted for the terminal transition); in general an
iteration emits an observation iff the status or progress changed *and* the
response is `pending`, or `processing` with a truthy `currentStep`. -/
theorem c1_observation_amended :
    (pollJobStatus MAX_TIMEOUT_MS POLL_INTERVAL_MS
        [pendingResp, processingResp 10 "Rendering frames",
         processingResp 60 "Encoding video", completedResp] pollInit =
      ([.pendingInfo, .progressBar "Rendering frames" 10,
        .progressBar "Encoding video" 60], .success completedResp, 4)) ∧
    (∀ (d p : Nat) (j : JobResp) (st : PollState), st.elapsed ≤ d →
       (((pollJobStatus d p [j] st).1 ≠ []) ↔
         (((some j.status ≠ st.lastStatus) ∨ j.progress ≠ st.lastProgress) ∧
          ((j.status = .processing ∧ strTruthyOpt j.currentStep = true) ∨
           j.status = .pending)))) := by
  constructor
  · decide
  · intro d p j st hle
    have he : ¬ d < st.elapsed := by omega
    rw [poll_singleton_trace he]
    unfold pollObs
    by_cases hch : pollChanged j st = true
    · rw [if_pos hch]
      unfold pollChanged at hch
      simp only [Bool.or_eq_true, bne_iff_ne] at hch
      by_cases hA : j.status = .processing ∧ strTruthyOpt j.currentStep = true
      · rw [if_pos hA]
        exact iff_of_true (by simp) ⟨hch, Or.inl hA⟩
      · rw [if_neg hA]
        by_cases hB : j.status = .pending
        · rw [if_pos hB]
          exact iff_of_true (by simp) ⟨hch, Or.inr hB⟩
        · rw [if_neg hB]
          exact iff_of_false (by simp) (by tauto)
    · rw [if_neg hch]
      unfold pollChanged at hch
      simp only [Bool.or_eq_true, bne_iff_ne, not_or, not_not] at hch
      exact iff_of_false (by simp) (by tauto)

/-- Witness for the amended C1 at a concrete processing response. -/
theorem c1_observation_amended_witness :
    pollInit.elapsed ≤ MAX_TIMEOUT_MS ∧
    (((pollJobStatus MAX_TIMEOUT_MS POLL_INTERVAL_MS
        [processingResp 10 "Rendering frames"] pollInit).1 ≠ []) ↔
      (((some (processingResp 10 "Rendering frames").status ≠ pollInit.lastStatus) ∨
        (processingResp 10 "Rendering frames").progress ≠ pollInit.lastProgress) ∧
       (((processingResp 10 "Rendering frames").status = Status.processing ∧
         strTruthyOpt (processingResp 10 "Rendering frames").currentStep = true) ∨
        (processingResp 10 "Rendering frames").status = Status.pending))) :=
  ⟨by decide,
   c1_observation_amended.2 MAX_TIMEOUT_MS POLL_INTERVAL_MS
     (processingResp 10 "Rendering frames") pollInit (by decide)⟩

/-- Claim C2 (counterexample): a download that fails after 4 MB of a 10 MB
body rejects but leaves the partial 4 MB file at the destination — neither
removed nor truncate-marked, and byte-for-byte the same size as a completed
4 MB artifact. -/
theorem c2_cleanup_counterexample :
    (downloadFile (some 10485760) [DlEvent.chunk 4194304, DlEvent.ioError]).outcome =
      .rejected ∧
    (downloadFile (some 10485760) [DlEvent.chunk 4194304, DlEvent.ioError]).fileBytes =
      4194304 ∧
    (downloadFile (some 10485760) [DlEvent.chunk 4194304, DlEvent.ioError]).fileBytes ≠ 0 ∧
    (downloadFile (some 4194304) [DlEvent.chunk 4194304, DlEvent.finished]).outcome =
      .resolved 4194304 ∧
    (downloadFile (some 4194304) [DlEvent.chunk 4194304, DlEvent.finished]).fileBytes =
      (downloadFile (some 10485760) [DlEvent.chunk 4194304, DlEvent.ioError]).fileBytes := by
  decide

/-- Claim C2 (amended): a download failing mid-stream rejects the promise and
leaves the partial destination file in place holding exactly the bytes
received so far; completeness is signalled only through the promise outcome,
never by removing or marking the file. -/
theorem c2_cleanup_amended (cl : Option Nat) (lens : List Nat)
    (post : List DlEvent) :
    (downloadFile cl (lens.map DlEvent.chunk ++ DlEvent.ioError :: post)).outcome =
      .rejected ∧
    (downloadFile cl (lens.map DlEvent.chunk ++ DlEvent.ioError :: post)).fileBytes =
      lens.sum := by
  obtain ⟨h1, h2, -⟩ := downloadLoop_chunks_error cl lens post 0
  exact ⟨h1, by simpa using h2⟩

/-- Claim C9: a download with `Content-Length` equal to the total body size
`N` that completes reports the strictly increasing running totals of the
chunks, ending exactly at `N`, and both the resolved byte count and the
file's size on disk equal `N`. -/
theorem c9_download_progress (lens : List Nat) (N : Nat)
    (hpos : ∀ l ∈ lens, 0 < l) (hsum : lens.sum = N) (hne : lens ≠ []) :
    (downloadFile (some N) (lens.map DlEvent.chunk ++ [DlEvent.finished])).outcome =
      .resolved N ∧
    (downloadFile (some N) (lens.map DlEvent.chunk ++ [DlEvent.finished])).fileBytes =
      N ∧
    (downloadFile (some N) (lens.map DlEvent.chunk ++ [DlEvent.finished])).byteTrace =
      prefixSums 0 lens ∧
    List.Chain' (· < ·)
      (downloadFile (some N) (lens.map DlEvent.chunk ++ [DlEvent.finished])).byteTrace ∧
    (downloadFile (some N) (lens.map DlEvent.chunk ++ [DlEvent.finished])).byteTrace.getLast? =
      some N := by
  have h := downloadLoop_chunks_finished (some N) lens 0
  have hdf : downloadFile (some N) (lens.map DlEvent.chunk ++ [DlEvent.finished]) =
      ⟨.resolved (0 + lens.sum), 0 + lens.sum, prefixSums 0 lens,
       if lenTruthy (some N) = true then
         (prefixSums 0 lens).map (fun x => jsRound100 x ((some N).getD 0))
       else []⟩ := h
  rw [hdf, hsum]
  refine ⟨by simp, by simp, rfl, prefixSums_chain lens 0 hpos, ?_⟩
  rw [prefixSums_getLast lens 0 hne, hsum]
  simp

/-- Witness for C9 at the spec's 10,485,760-byte download in three chunks. -/
theorem c9_download_progress_witness :
    (∀ l ∈ [4000000, 4000000, 2485760], 0 < l) ∧
    ([4000000, 4000000, 2485760] : List Nat).sum = 10485760 ∧
    (downloadFile (some 10485760)
      (([4000000, 4000000, 2485760] : List Nat).map DlEvent.chunk ++
        [DlEvent.finished])).outcome = .resolved 10485760 ∧
    (downloadFile (some 10485760)
      (([4000000, 4000000, 2485760] : List Nat).map DlEvent.chunk ++
        [DlEvent.finished])).byteTrace.getLast? = some 10485760 :=
  ⟨by decide, by decide,
   (c9_download_progress [4000000, 4000000, 2485760] 10485760 (by decide)
     (by decide) (by decide)).1,
   (c9_download_progress [4000000, 4000000, 2485760] 10485760 (by decide)
     (by decide) (by decide)).2.2.2.2⟩

end TestRemote
